import Mathlib

/-!
# Verification of the `datimer` terminal stopwatch

Shallow embedding of `src/main.rs`: the `Line` entry type, the `History`
scrolling buffer with its replace/append write semantics and file
persistence, and the main event loop (timer state machine).

Modelling conventions:
* Time is modelled in milliseconds. `tokio::time::Instant` and
  `tokio::time::Duration` both become `Nat` (Rust `Instant` subtraction
  saturates at zero, matching `Nat` truncated subtraction; `Duration`
  arithmetic is plain addition). `Duration::as_secs` is division by 1000.
* Machine-integer casts are explicit: `as u8` is `% 256`, the
  `usize as u16` cast in `History::len` is `% 65536`.
* The terminal is not modelled as a grid; instead each write operation
  returns the list of `Line`s it prints (its render trace), in order.
* The history file becomes the `fileContent` field (list of text lines);
  fallible I/O is driven by an environment-supplied `Option Nat`
  (`none` = the underlying file operations succeed, `some e` = they fail
  with error `e`), and fallible functions return `Except Nat _`,
  mirroring `std::io::Result`.
* `chrono::Local::now()` is an environment-supplied (hour, minute, second)
  triple.
-/

/-- `const TIME_X: u16 = 14` (display column for timestamps). -/
def TIME_X : Nat := 14

/-- `const REFRESH_MS: u64 = 128` (tick period in milliseconds). -/
def REFRESH_MS : Nat := 128

/-- `const SAVE_INTERVAL_S: u64 = 20` (persistence interval in seconds). -/
def SAVE_INTERVAL_S : Nat := 20

/-- `crossterm::style::Color` as used by the program. -/
inductive Color where
  | Reset
  | Cyan
  | Green
  | Red
deriving Repr, DecidableEq

/-- `struct Line`: a history entry. `message` and `timestamp` carry the
text content of the two `StyledContent` fields; `bold`/`italic` model the
emphasis applied by `Line::bold`/`Line::italic` to both. -/
structure Line where
  message : String
  timestamp : String
  color : Color
  bold : Bool
  italic : Bool
deriving Repr, DecidableEq

/-- `format!("{:02}", n)`: decimal, zero-padded to a minimum width of 2. -/
def pad2 (n : Nat) : String :=
  if n < 10 then "0" ++ toString n else toString n

/-- `Line::new`: formats the (h, m, s) triple as `"{:02}:{:02}:{:02}"`;
color starts as `Reset`, no emphasis. -/
def Line.new (message : String) (hms : Nat × Nat × Nat) : Line :=
  { message := message
    timestamp := pad2 hms.1 ++ ":" ++ pad2 hms.2.1 ++ ":" ++ pad2 hms.2.2
    color := Color.Reset
    bold := false
    italic := false }

/-- `Line::from_duration`: `d` is a `Duration` in milliseconds, so
`d.as_secs()` is `d / 1000`; the three components each go through an
`as u8` cast (`% 256`). -/
def Line.from_duration (message : String) (d : Nat) : Line :=
  Line.new message
    ((d / 1000 / 3600) % 256, ((d / 1000 % 3600) / 60) % 256, (d / 1000 % 60) % 256)

/-- `Line::from_datetime`: the wall-clock hour/minute/second, each through
an `as u8` cast. -/
def Line.from_datetime (message : String) (hms : Nat × Nat × Nat) : Line :=
  Line.new message (hms.1 % 256, hms.2.1 % 256, hms.2.2 % 256)

/-- `Line::color` (renamed: `color` is already the field name). -/
def Line.setColor (l : Line) (c : Color) : Line := { l with color := c }

/-- `Line::bold` (renamed: `bold` is already the field name). -/
def Line.setBold (l : Line) : Line := { l with bold := true }

/-- `Line::italic` (renamed: `italic` is already the field name). -/
def Line.setItalic (l : Line) : Line := { l with italic := true }

/-- One line of the history file, as written by `History::update_history`:
`writeln!(file, "{} {}", line.message.content(), line.timestamp.content())`. -/
def Line.serialize (l : Line) : String := l.message ++ " " ++ l.timestamp

/-- `struct History`: the scrolling buffer. `lines` is the `VecDeque`
with the oldest entry first; `fileContent` is the current content of
`history_file` (one string per line); `last_save` is an instant in
milliseconds. -/
structure History where
  lines : List Line
  start_row : Nat
  max_rows : Nat
  fileContent : List String
  last_save : Nat
deriving Repr, DecidableEq

/-- `History::new`: `max_rows = terminal::size().unwrap().1 - 6` is an
unchecked `u16` subtraction, which underflows when the terminal height is
below 6 (panic in a debug build, wrap-around in release); the model
returns `none` in that case. The history file was just created
(truncated) by `File::create`, so `fileContent` starts empty. -/
def History.new (height : Nat) (now : Nat) : Option History :=
  if height < 6 then none
  else some
    { lines := []
      start_row := 4
      max_rows := height - 6
      fileContent := []
      last_save := now }

/-- `History::len`: `self.lines.len() as u16`. -/
def History.len (h : History) : Nat := h.lines.length % 65536

/-- `History::active_line`: `self.len() + self.start_row` (u16 addition). -/
def History.active_line (h : History) : Nat := (h.len + h.start_row) % 65536

/-- `History::update_history`: seek to 0, truncate the file, then write
every buffered line — the file becomes exactly the serialization of the
current buffer. `ioError` says whether the underlying file operations
fail. -/
def History.update_history (h : History) (ioError : Option Nat) :
    Except Nat History :=
  match ioError with
  | some e => Except.error e
  | none => Except.ok { h with fileContent := h.lines.map Line.serialize }

/-- `History::write_line`. First, if `advance` is set or at least
`SAVE_INTERVAL_S` seconds passed since `last_save`, set `last_save := now`
and persist (propagating any I/O error). Then either replace the last
line (`advance = false`: `pop_back` + `push_back`), append below capacity,
or evict the oldest entry and redraw the whole viewport. The second
component of the result is the render trace: the lines printed to the
terminal by this call, in order. -/
def History.write_line (h : History) (line : Line) (advance : Bool)
    (now : Nat) (ioError : Option Nat) : Except Nat (History × List Line) :=
  let write : History → Except Nat (History × List Line) := fun h =>
    if !advance then
      Except.ok ({ h with lines := h.lines.dropLast ++ [line] }, [line])
    else if h.len < h.max_rows then
      Except.ok ({ h with lines := h.lines ++ [line] }, [line])
    else
      Except.ok ({ h with lines := h.lines.tail ++ [line] }, h.lines.tail ++ [line])
  if advance || decide (SAVE_INTERVAL_S * 1000 ≤ now - h.last_save) then
    match History.update_history { h with last_save := now } ioError with
    | Except.error e => Except.error e
    | Except.ok h' => write h'
  else write h

/-- The orchestrator's mutable state: `running_total` and `start` are the
`Duration`/`Instant` locals of `main` (milliseconds), `paused` the state
flag, plus the `History`. -/
structure AppState where
  running_total : Nat
  start : Nat
  paused : Bool
  history : History
deriving Repr, DecidableEq

/-- The environment observed during one loop iteration: the monotonic
instant `now` (used for `start.elapsed()` and `Instant::now()` within the
iteration), the wall clock (h, m, s) from `chrono::Local::now()`, the
result of `rx.try_recv()`, and whether file writes fail this iteration. -/
structure TickEnv where
  now : Nat
  wall : Nat × Nat × Nat
  input : Option Char
  ioError : Option Nat
deriving Repr, DecidableEq

/-- One iteration of the main loop. Returns the new state, whether the
loop breaks (`'q'`), and the render trace of the iteration.

When not paused: replace-write a bold `"Elapsed:"` line showing
`running_total + start.elapsed()`. Then poll input: `'q'` breaks;
`'p'`/`' '` toggles — resume resets `start` and writes `"Resumed at:"`
(replace) then a bold `"Elapsed:"` (append); pause commits
`running_total += start.elapsed()` and writes `"Paused at:"` (replace)
then an italic `"Elapsed:"` (append). Other characters are ignored. -/
def tick (s : AppState) (env : TickEnv) :
    Except Nat (AppState × Bool × List Line) :=
  let afterElapsed : Except Nat (AppState × List Line) :=
    if !s.paused then
      match s.history.write_line
          (((Line.from_duration "Elapsed:"
              (s.running_total + (env.now - s.start))).setColor
            Color.Reset).setBold)
          false env.now env.ioError with
      | Except.error e => Except.error e
      | Except.ok (h, r) => Except.ok ({ s with history := h }, r)
    else Except.ok (s, [])
  match afterElapsed with
  | Except.error e => Except.error e
  | Except.ok (s1, out1) =>
    match env.input with
    | none => Except.ok (s1, false, out1)
    | some c =>
      if c = 'q' then Except.ok (s1, true, out1)
      else if c = 'p' ∨ c = ' ' then
        if s1.paused then
          match s1.history.write_line
              ((Line.from_datetime "Resumed at:" env.wall).setColor Color.Green)
              false env.now env.ioError with
          | Except.error e => Except.error e
          | Except.ok (h1, r1) =>
            match h1.write_line
                (((Line.from_duration "Elapsed:"
                    s1.running_total).setColor Color.Reset).setBold)
                true env.now env.ioError with
            | Except.error e => Except.error e
            | Except.ok (h2, r2) =>
              Except.ok ({ s1 with start := env.now, history := h2, paused := false },
                false, out1 ++ r1 ++ r2)
        else
          match s1.history.write_line
              ((Line.from_datetime "Paused at:" env.wall).setColor Color.Red)
              false env.now env.ioError with
          | Except.error e => Except.error e
          | Except.ok (h1, r1) =>
            match h1.write_line
                (((Line.from_duration "Elapsed:"
                    (s1.running_total + (env.now - s1.start))).setColor
                  Color.Reset).setItalic)
                true env.now env.ioError with
            | Except.error e => Except.error e
            | Except.ok (h2, r2) =>
              Except.ok ({ s1 with
                  running_total := s1.running_total + (env.now - s1.start),
                  history := h2, paused := true },
                false, out1 ++ r1 ++ r2)
      else Except.ok (s1, false, out1)

/-- The main loop over a list of per-iteration environments, accumulating
the render trace; stops early on `'q'` and propagates I/O errors (which
abort `main`). -/
def runLoop : AppState → List TickEnv → Except Nat (AppState × List Line)
  | s, [] => Except.ok (s, [])
  | s, env :: rest =>
    match tick s env with
    | Except.error e => Except.error e
    | Except.ok (s1, quit, out) =>
      if quit then Except.ok (s1, out)
      else
        match runLoop s1 rest with
        | Except.error e => Except.error e
        | Except.ok (s2, out2) => Except.ok (s2, out ++ out2)

/-- The state entering the first loop iteration of `main`:
`running_total = 0`, `start = Instant::now()` (= `t0`), not paused. -/
def initState (h0 : History) (t0 : Nat) : AppState :=
  { running_total := 0, start := t0, paused := false, history := h0 }

example : (Line.from_duration "Elapsed:" 5000).timestamp = "00:00:05" := by rfl

example : (Line.from_duration "Elapsed:" (108000 * 1000)).timestamp = "30:00:00" := by rfl

/-! ## Basic lemmas about `History.write_line` -/

theorem write_line_frame {h h' : History} {l : Line} {adv : Bool}
    {now : Nat} {io : Option Nat} {r : List Line}
    (hw : h.write_line l adv now io = Except.ok (h', r)) :
    h'.max_rows = h.max_rows ∧ h'.start_row = h.start_row := by
  unfold History.write_line at hw
  cases io with
  | some e =>
    simp only [History.update_history] at hw
    split at hw
    · simp at hw
    · split at hw
      all_goals try split at hw
      all_goals
        simp only [Except.ok.injEq, Prod.mk.injEq] at hw
      all_goals obtain ⟨rfl, rfl⟩ := hw
      all_goals exact ⟨rfl, rfl⟩
  | none =>
    simp only [History.update_history] at hw
    split at hw
    all_goals split at hw
    all_goals try split at hw
    all_goals simp only [Except.ok.injEq, Prod.mk.injEq] at hw
    all_goals obtain ⟨rfl, rfl⟩ := hw
    all_goals exact ⟨rfl, rfl⟩

theorem write_line_replace {h h' : History} {l : Line}
    {now : Nat} {io : Option Nat} {r : List Line}
    (hw : h.write_line l false now io = Except.ok (h', r)) :
    h'.lines = h.lines.dropLast ++ [l] ∧ r = [l] := by
  unfold History.write_line at hw
  cases io with
  | some e =>
    simp only [History.update_history, Bool.false_eq_true, false_or] at hw
    split at hw
    · simp at hw
    · simp only [Bool.not_false, if_pos, Except.ok.injEq, Prod.mk.injEq] at hw
      obtain ⟨rfl, rfl⟩ := hw
      exact ⟨rfl, rfl⟩
  | none =>
    simp only [History.update_history, Bool.false_eq_true, false_or] at hw
    split at hw
    all_goals simp only [Bool.not_false, if_pos, Except.ok.injEq, Prod.mk.injEq] at hw
    all_goals obtain ⟨rfl, rfl⟩ := hw
    all_goals exact ⟨rfl, rfl⟩

theorem write_line_append {h h' : History} {l : Line}
    {now : Nat} {io : Option Nat} {r : List Line}
    (hw : h.write_line l true now io = Except.ok (h', r)) :
    io = none ∧ h'.fileContent = h.lines.map Line.serialize ∧
      h'.last_save = now ∧
      (if h.lines.length % 65536 < h.max_rows
        then h'.lines = h.lines ++ [l] ∧ r = [l]
        else h'.lines = h.lines.tail ++ [l] ∧ r = h.lines.tail ++ [l]) := by
  unfold History.write_line at hw
  cases io with
  | some e => simp [History.update_history] at hw
  | none =>
    simp only [History.update_history, Bool.true_or, if_true, Bool.not_true,
      Bool.false_eq_true, if_false, History.len] at hw
    refine ⟨rfl, ?_⟩
    split at hw
    all_goals simp only [Except.ok.injEq, Prod.mk.injEq] at hw
    all_goals obtain ⟨rfl, rfl⟩ := hw
    · exact ⟨rfl, rfl, by simp_all⟩
    · exact ⟨rfl, rfl, by simp_all⟩

theorem write_line_of_io_none (h : History) (l : Line) (adv : Bool) (now : Nat) :
    ∃ h' r, h.write_line l adv now none = Except.ok (h', r) := by
  unfold History.write_line
  simp only [History.update_history]
  split
  all_goals split
  all_goals try split
  all_goals exact ⟨_, _, rfl⟩

theorem write_line_append_io_error (h : History) (l : Line) (now e : Nat) :
    h.write_line l true now (some e) = Except.error e := by
  unfold History.write_line
  simp [History.update_history]

/-! ## The four event lines a tick can write -/

/-- The live ticking `"Elapsed:"` line (running, start of the iteration). -/
def tickLine (s : AppState) (env : TickEnv) : Line :=
  ((Line.from_duration "Elapsed:"
    (s.running_total + (env.now - s.start))).setColor Color.Reset).setBold

/-- The `"Resumed at:"` event line. -/
def resumedLine (env : TickEnv) : Line :=
  (Line.from_datetime "Resumed at:" env.wall).setColor Color.Green

/-- The `"Elapsed:"` snapshot written right after resuming. -/
def resumeSnapLine (s : AppState) : Line :=
  ((Line.from_duration "Elapsed:" s.running_total).setColor Color.Reset).setBold

/-- The `"Paused at:"` event line. -/
def pausedLine (env : TickEnv) : Line :=
  (Line.from_datetime "Paused at:" env.wall).setColor Color.Red

/-- The `"Elapsed:"` snapshot written right after pausing (shows the
just-committed total). -/
def pauseSnapLine (s : AppState) (env : TickEnv) : Line :=
  ((Line.from_duration "Elapsed:"
    (s.running_total + (env.now - s.start))).setColor Color.Reset).setItalic

/-- Complete case analysis of a successful `tick`. -/
theorem tick_ok_cases {s : AppState} {env : TickEnv} {s' : AppState}
    {q : Bool} {out : List Line}
    (ht : tick s env = Except.ok (s', q, out)) :
    (s.paused = true ∧ env.input = none ∧ s' = s ∧ q = false ∧ out = []) ∨
    (s.paused = true ∧ env.input = some 'q' ∧ s' = s ∧ q = true ∧ out = []) ∨
    (s.paused = true ∧ (∃ c, env.input = some c ∧ c ≠ 'q' ∧ ¬(c = 'p' ∨ c = ' ')) ∧
      s' = s ∧ q = false ∧ out = []) ∨
    (s.paused = true ∧ (∃ c, env.input = some c ∧ (c = 'p' ∨ c = ' ')) ∧
      ∃ h1 r1 h2 r2,
        s.history.write_line (resumedLine env) false env.now env.ioError
            = Except.ok (h1, r1) ∧
          h1.write_line (resumeSnapLine s) true env.now env.ioError
            = Except.ok (h2, r2) ∧
          s' = { s with start := env.now, history := h2, paused := false } ∧
          q = false ∧ out = r1 ++ r2) ∨
    (s.paused = false ∧ ∃ h r,
      s.history.write_line (tickLine s env) false env.now env.ioError
          = Except.ok (h, r) ∧
        ((env.input = none ∧ s' = { s with history := h } ∧ q = false ∧ out = r) ∨
          (env.input = some 'q' ∧ s' = { s with history := h } ∧ q = true ∧ out = r) ∨
          ((∃ c, env.input = some c ∧ c ≠ 'q' ∧ ¬(c = 'p' ∨ c = ' ')) ∧
            s' = { s with history := h } ∧ q = false ∧ out = r) ∨
          ((∃ c, env.input = some c ∧ (c = 'p' ∨ c = ' ')) ∧
            ∃ h1 r1 h2 r2,
              h.write_line (pausedLine env) false env.now env.ioError
                  = Except.ok (h1, r1) ∧
                h1.write_line (pauseSnapLine s env) true env.now env.ioError
                  = Except.ok (h2, r2) ∧
                s' = { s with
                    running_total := s.running_total + (env.now - s.start),
                    history := h2, paused := true } ∧
                q = false ∧ out = r ++ r1 ++ r2))) := by
  unfold tick at ht
  cases hp : s.paused with
  | true =>
    simp only [hp, Bool.not_true, Bool.false_eq_true, if_false] at ht
    cases hi : env.input with
    | none =>
      simp only [hi, Except.ok.injEq, Prod.mk.injEq] at ht
      obtain ⟨rfl, rfl, rfl⟩ := ht
      exact Or.inl ⟨rfl, rfl, rfl, rfl, rfl⟩
    | some c =>
      simp only [hi] at ht
      by_cases hq : c = 'q'
      · subst hq
        simp only [if_pos rfl, Except.ok.injEq, Prod.mk.injEq] at ht
        obtain ⟨rfl, rfl, rfl⟩ := ht
        exact Or.inr (Or.inl ⟨rfl, rfl, rfl, rfl, rfl⟩)
      · by_cases htg : c = 'p' ∨ c = ' '
        · simp only [if_neg hq, if_pos htg, hp, if_pos rfl] at ht
          cases hw1 : s.history.write_line
              ((Line.from_datetime "Resumed at:" env.wall).setColor Color.Green)
              false env.now env.ioError with
          | error e => simp [hw1] at ht
          | ok p1 =>
            obtain ⟨h1, r1⟩ := p1
            simp only [hw1] at ht
            cases hw2 : h1.write_line
                (((Line.from_duration "Elapsed:" s.running_total).setColor
                  Color.Reset).setBold) true env.now env.ioError with
            | error e => simp [hw2] at ht
            | ok p2 =>
              obtain ⟨h2, r2⟩ := p2
              simp only [hw2, Except.ok.injEq, Prod.mk.injEq] at ht
              obtain ⟨rfl, rfl, rfl⟩ := ht
              refine Or.inr (Or.inr (Or.inr (Or.inl
                ⟨rfl, ⟨c, rfl, htg⟩, h1, r1, h2, r2, hw1, hw2, rfl, rfl, by simp⟩)))
        · simp only [if_neg hq, if_neg htg, Except.ok.injEq, Prod.mk.injEq] at ht
          obtain ⟨rfl, rfl, rfl⟩ := ht
          exact Or.inr (Or.inr (Or.inl ⟨rfl, ⟨c, rfl, hq, htg⟩, rfl, rfl, rfl⟩))
  | false =>
    simp only [hp, Bool.not_false, if_pos] at ht
    cases hw : s.history.write_line
        (((Line.from_duration "Elapsed:"
          (s.running_total + (env.now - s.start))).setColor Color.Reset).setBold)
        false env.now env.ioError with
    | error e => simp [hw] at ht
    | ok p =>
      obtain ⟨h, r⟩ := p
      simp only [hw] at ht
      refine Or.inr (Or.inr (Or.inr (Or.inr ⟨rfl, h, r, hw, ?_⟩)))
      cases hi : env.input with
      | none =>
        simp only [hi, Except.ok.injEq, Prod.mk.injEq] at ht
        obtain ⟨rfl, rfl, rfl⟩ := ht
        exact Or.inl ⟨rfl, rfl, rfl, rfl⟩
      | some c =>
        simp only [hi] at ht
        by_cases hq : c = 'q'
        · subst hq
          simp only [if_pos rfl, Except.ok.injEq, Prod.mk.injEq] at ht
          obtain ⟨rfl, rfl, rfl⟩ := ht
          exact Or.inr (Or.inl ⟨rfl, rfl, rfl, rfl⟩)
        · by_cases htg : c = 'p' ∨ c = ' '
          · simp only [if_neg hq, if_pos htg, hp, Bool.false_eq_true, if_false] at ht
            cases hw1 : h.write_line
                ((Line.from_datetime "Paused at:" env.wall).setColor Color.Red)
                false env.now env.ioError with
            | error e => simp [hw1] at ht
            | ok p1 =>
              obtain ⟨h1, r1⟩ := p1
              simp only [hw1] at ht
              cases hw2 : h1.write_line
                  (((Line.from_duration "Elapsed:"
                    (s.running_total + (env.now - s.start))).setColor
                    Color.Reset).setItalic) true env.now env.ioError with
              | error e => simp [hw2] at ht
              | ok p2 =>
                obtain ⟨h2, r2⟩ := p2
                simp only [hw2, Except.ok.injEq, Prod.mk.injEq] at ht
                obtain ⟨rfl, rfl, rfl⟩ := ht
                exact Or.inr (Or.inr (Or.inr
                  ⟨⟨c, rfl, htg⟩, h1, r1, h2, r2, hw1, hw2, rfl, rfl, rfl⟩))
          · simp only [if_neg hq, if_neg htg, Except.ok.injEq, Prod.mk.injEq] at ht
            obtain ⟨rfl, rfl, rfl⟩ := ht
            exact Or.inr (Or.inr (Or.inl ⟨⟨c, rfl, hq, htg⟩, rfl, rfl, rfl⟩))

theorem write_line_error_io {h : History} {l : Line} {adv : Bool}
    {now e e' : Nat}
    (hw : h.write_line l adv now (some e) = Except.error e') : e' = e := by
  unfold History.write_line at hw
  simp only [History.update_history] at hw
  split at hw
  · simp only [Except.error.injEq] at hw
    exact hw.symm
  · split at hw
    all_goals try split at hw
    all_goals simp at hw

/-- C9: while the timer is paused and no input character is pending, a
tick is a complete no-op: the state (history buffer, `last_save`, file
content) is returned unchanged, the loop does not quit, and nothing is
rendered. Since the 20-second interval save is checked only inside
`write_line` and no `write_line` runs, it cannot fire, whatever `env.now`
is. -/
theorem c9_paused_idle_tick_is_noop (s : AppState) (env : TickEnv)
    (hp : s.paused = true) (hi : env.input = none) :
    tick s env = Except.ok (s, false, []) := by
  unfold tick
  simp [hp, hi]

/-- Concrete paused state for the C9 witness; `now` is far beyond the
20-second save interval past `last_save`. -/
def idleHistory : History :=
  { lines := [Line.from_datetime "Paused at:" (10, 0, 0)], start_row := 4,
    max_rows := 10, fileContent := ["Paused at: 10:00:00"], last_save := 0 }

def idleState : AppState :=
  { running_total := 5000, start := 0, paused := true, history := idleHistory }

def idleEnv : TickEnv :=
  { now := 1000000, wall := (10, 0, 5), input := none, ioError := none }

theorem c9_witness :
    idleState.paused = true ∧ idleEnv.input = none ∧
      tick idleState idleEnv = Except.ok (idleState, false, []) :=
  ⟨rfl, rfl, c9_paused_idle_tick_is_noop idleState idleEnv rfl rfl⟩

/-- C8: persistence failure is fatal. (1) An append-mode `write_line`
whose file operations fail returns the error (it is propagated, not
swallowed). (2) A whole iteration processing a toggle while running
returns the error. (3) `runLoop` stops at an erroring iteration: the
error is returned to `main` (which exits with it) and no subsequent
iteration runs, regardless of the remaining input. -/
theorem c8_persistence_error_fatal :
    (∀ (h : History) (l : Line) (now e : Nat),
        h.write_line l true now (some e) = Except.error e) ∧
    (∀ (s : AppState) (env : TickEnv) (e : Nat),
        s.paused = false → (env.input = some 'p' ∨ env.input = some ' ') →
        env.ioError = some e → tick s env = Except.error e) ∧
    (∀ (s : AppState) (env : TickEnv) (rest : List TickEnv) (e : Nat),
        tick s env = Except.error e →
        runLoop s (env :: rest) = Except.error e) := by
  refine ⟨write_line_append_io_error, ?_, ?_⟩
  · intro s env e hp htg hio
    unfold tick
    simp only [hp, Bool.not_false, if_pos]
    cases hw : s.history.write_line
        (((Line.from_duration "Elapsed:"
          (s.running_total + (env.now - s.start))).setColor Color.Reset).setBold)
        false env.now env.ioError with
    | error e' =>
      rw [hio] at hw
      rw [write_line_error_io hw]
    | ok p =>
      obtain ⟨h, r⟩ := p
      simp only []
      rcases htg with h1 | h1
      all_goals simp only [h1]
      all_goals rw [if_neg (by decide), if_pos (by decide)]
      all_goals simp only [hp, Bool.false_eq_true, if_false]
      all_goals
        cases hw1 : h.write_line
            ((Line.from_datetime "Paused at:" env.wall).setColor Color.Red)
            false env.now env.ioError with
        | error e' =>
          rw [hio] at hw1
          rw [write_line_error_io hw1]
        | ok p1 =>
          obtain ⟨h1', r1⟩ := p1
          simp only [hio] at hw1 ⊢
          rw [write_line_append_io_error]
  · intro s env rest e htick
    unfold runLoop
    simp [htick]

/-- Concrete running state with a toggle pending and failing file I/O,
for the C8 witness. -/
def errHistory : History :=
  { lines := [Line.from_duration "Elapsed:" 1000], start_row := 4,
    max_rows := 10, fileContent := [], last_save := 0 }

def errState : AppState :=
  { running_total := 0, start := 0, paused := false, history := errHistory }

def errEnv : TickEnv :=
  { now := 1000, wall := (12, 0, 1), input := some 'p', ioError := some 7 }

theorem c8_witness :
    errHistory.write_line (Line.from_duration "Elapsed:" 2000) true 1000 (some 7)
        = Except.error 7 ∧
      tick errState errEnv = Except.error 7 ∧
      runLoop errState [errEnv, errEnv] = Except.error 7 :=
  ⟨c8_persistence_error_fatal.1 errHistory (Line.from_duration "Elapsed:" 2000) 1000 7,
    c8_persistence_error_fatal.2.1 errState errEnv 7 rfl (Or.inl rfl) rfl,
    c8_persistence_error_fatal.2.2 errState errEnv [errEnv] 7
      (c8_persistence_error_fatal.2.1 errState errEnv 7 rfl (Or.inl rfl) rfl)⟩

/-- C5: `running_total` is monotonically non-decreasing, per tick and
over any whole run, and it changes only at a Running→Paused transition
(toggle received while running), where it becomes
`running_total + (now - start)` — i.e. it is incremented by
`start.elapsed()`. No other step of the loop modifies it. -/
theorem c5_running_total_monotone :
    (∀ (s : AppState) (env : TickEnv) (s' : AppState) (q : Bool)
        (out : List Line),
        tick s env = Except.ok (s', q, out) →
        s.running_total ≤ s'.running_total ∧
          (s'.running_total ≠ s.running_total →
            s.paused = false ∧ s'.paused = true ∧
              (env.input = some 'p' ∨ env.input = some ' ') ∧
              s'.running_total = s.running_total + (env.now - s.start))) ∧
    (∀ (s : AppState) (envs : List TickEnv) (s' : AppState) (out : List Line),
        runLoop s envs = Except.ok (s', out) →
        s.running_total ≤ s'.running_total) := by
  have step : ∀ (s : AppState) (env : TickEnv) (s' : AppState) (q : Bool)
      (out : List Line),
      tick s env = Except.ok (s', q, out) →
      s.running_total ≤ s'.running_total ∧
        (s'.running_total ≠ s.running_total →
          s.paused = false ∧ s'.paused = true ∧
            (env.input = some 'p' ∨ env.input = some ' ') ∧
            s'.running_total = s.running_total + (env.now - s.start)) := by
    intro s env s' q out ht
    rcases tick_ok_cases ht with
      ⟨hp, hi, rfl, rfl, rfl⟩ | ⟨hp, hi, rfl, rfl, rfl⟩ |
      ⟨hp, hc, rfl, rfl, rfl⟩ |
      ⟨hp, hc, h1, r1, h2, r2, hw1, hw2, rfl, rfl, rfl⟩ |
      ⟨hp, h, r, hw, hrest⟩
    · exact ⟨le_refl _, fun hne => absurd rfl hne⟩
    · exact ⟨le_refl _, fun hne => absurd rfl hne⟩
    · exact ⟨le_refl _, fun hne => absurd rfl hne⟩
    · exact ⟨le_refl _, fun hne => absurd rfl hne⟩
    · rcases hrest with ⟨hi, rfl, rfl, rfl⟩ | ⟨hi, rfl, rfl, rfl⟩ |
        ⟨hc, rfl, rfl, rfl⟩ | ⟨hc, h1, r1, h2, r2, hw1, hw2, rfl, rfl, rfl⟩
      · exact ⟨le_refl _, fun hne => absurd rfl hne⟩
      · exact ⟨le_refl _, fun hne => absurd rfl hne⟩
      · exact ⟨le_refl _, fun hne => absurd rfl hne⟩
      · refine ⟨Nat.le_add_right _ _, fun hne => ⟨hp, rfl, ?_, rfl⟩⟩
        obtain ⟨c, hc', htg⟩ := hc
        rcases htg with rfl | rfl
        · exact Or.inl hc'
        · exact Or.inr hc'
  refine ⟨step, ?_⟩
  intro s envs
  induction envs generalizing s with
  | nil =>
    intro s' out h
    simp only [runLoop, Except.ok.injEq, Prod.mk.injEq] at h
    obtain ⟨rfl, rfl⟩ := h
    exact le_refl _
  | cons env rest ih =>
    intro s' out h
    unfold runLoop at h
    cases ht : tick s env with
    | error e => simp [ht] at h
    | ok p =>
      obtain ⟨s1, q, out1⟩ := p
      simp only [ht] at h
      cases q with
      | true =>
        simp only [if_pos, Except.ok.injEq, Prod.mk.injEq] at h
        obtain ⟨rfl, rfl⟩ := h
        exact (step _ _ _ _ _ ht).1
      | false =>
        simp only [Bool.false_eq_true, if_false] at h
        cases hr : runLoop s1 rest with
        | error e => simp [hr] at h
        | ok p2 =>
          obtain ⟨s2, out2⟩ := p2
          simp only [hr, Except.ok.injEq, Prod.mk.injEq] at h
          obtain ⟨rfl, rfl⟩ := h
          exact le_trans (step _ _ _ _ _ ht).1 (ih _ _ _ hr)

/-- Concrete inputs for the C5 witness: a running state with one buffered
line receives a `'p'` toggle at `now = 3000`. -/
def c5History : History :=
  { lines := [Line.from_duration "Elapsed:" 1000], start_row := 4,
    max_rows := 10, fileContent := [], last_save := 0 }

def c5S : AppState :=
  { running_total := 0, start := 0, paused := false, history := c5History }

def c5Env : TickEnv :=
  { now := 3000, wall := (12, 0, 3), input := some 'p', ioError := none }

/-- The state and render trace `tick c5S c5Env` produces. -/
def c5S' : AppState :=
  { running_total := 3000, start := 0, paused := true,
    history :=
      { lines :=
          [{ message := "Paused at:", timestamp := "12:00:03",
             color := Color.Red, bold := false, italic := false },
           { message := "Elapsed:", timestamp := "00:00:03",
             color := Color.Reset, bold := false, italic := true }],
        start_row := 4, max_rows := 10,
        fileContent := ["Paused at: 12:00:03"], last_save := 3000 } }

def c5Out : List Line :=
  [{ message := "Elapsed:", timestamp := "00:00:03", color := Color.Reset,
     bold := true, italic := false },
   { message := "Paused at:", timestamp := "12:00:03", color := Color.Red,
     bold := false, italic := false },
   { message := "Elapsed:", timestamp := "00:00:03", color := Color.Reset,
     bold := false, italic := true }]

theorem c5_witness :
    tick c5S c5Env = Except.ok (c5S', false, c5Out) ∧
      c5S.running_total ≤ c5S'.running_total ∧
      c5S'.running_total = c5S.running_total + (c5Env.now - c5S.start) :=
  ⟨rfl,
    (c5_running_total_monotone.1 c5S c5Env c5S' false c5Out rfl).1,
    ((c5_running_total_monotone.1 c5S c5Env c5S' false c5Out rfl).2
      (by decide)).2.2.2⟩

/-! ## Buffer length and persistence claims -/

/-- The initial (empty) buffer with capacity 10, and idle environments,
for the C2 counterexample. -/
def c2H0 : History :=
  { lines := [], start_row := 4, max_rows := 10, fileContent := [],
    last_save := 0 }

def c2S : AppState := initState c2H0 0

def c2Envs : List TickEnv :=
  [{ now := 128, wall := (10, 0, 0), input := none, ioError := none },
   { now := 256, wall := (10, 0, 0), input := none, ioError := none },
   { now := 384, wall := (10, 0, 0), input := none, ioError := none },
   { now := 512, wall := (10, 0, 0), input := none, ioError := none },
   { now := 640, wall := (10, 0, 0), input := none, ioError := none }]

/-- C2 counterexample: a Replace write on the *empty* buffer grows it
(`pop_back` on an empty `VecDeque` is a no-op, `push_back` still runs):
after one idle tick from startup the buffer length is 1, and after the
spec's five-idle-ticks scenario it is still 1 — not 0 as claimed. -/
theorem c2_counterexample :
    c2S.history.lines.length = 0 ∧
      (tick c2S (c2Envs.get ⟨0, by decide⟩)).map
          (fun p => p.1.history.lines.length) = Except.ok 1 ∧
      (runLoop c2S c2Envs).map (fun p => p.1.history.lines.length)
        = Except.ok 1 :=
  ⟨rfl, rfl, rfl⟩

/-- Idle running tick: characterization used for the C2 run induction. -/
theorem tick_idle_running {s : AppState} {env : TickEnv} {s' : AppState}
    {q : Bool} {out : List Line}
    (hp : s.paused = false) (hi : env.input = none)
    (ht : tick s env = Except.ok (s', q, out)) :
    s'.paused = false ∧
      s'.history.lines = s.history.lines.dropLast ++ [tickLine s env] := by
  rcases tick_ok_cases ht with
    ⟨hp', _, _, _, _⟩ | ⟨hp', _, _, _, _⟩ | ⟨hp', _, _, _, _⟩ |
    ⟨hp', _, _⟩ |
    ⟨hp', h, r, hw, hrest⟩
  · rw [hp'] at hp; exact Bool.noConfusion hp
  · rw [hp'] at hp; exact Bool.noConfusion hp
  · rw [hp'] at hp; exact Bool.noConfusion hp
  · rw [hp'] at hp; exact Bool.noConfusion hp
  obtain ⟨hl, hr⟩ := write_line_replace hw
  rcases hrest with ⟨hi', rfl, rfl, rfl⟩ | ⟨hi', _, _, _⟩ |
    ⟨⟨c, hc, _, _⟩, _, _, _⟩ | ⟨⟨c, hc, _⟩, _⟩
  · exact ⟨hp, hl⟩
  · rw [hi] at hi'; exact absurd hi' (by simp)
  · rw [hi] at hc; exact absurd hc (by simp)
  · rw [hi] at hc; exact absurd hc (by simp)

/-- C2 amended: a Replace write leaves the length unchanged when the
buffer is non-empty (dropping the previous last entry and substituting
the new one); on an *empty* buffer it inserts the entry, giving length 1.
Consequently, from startup (empty buffer), any positive number of idle
ticks leaves the buffer at length exactly 1 — the ticking counter
occupies one row and never accumulates further rows. -/
theorem c2_replace_never_grows_nonempty :
    (∀ (h : History) (l : Line) (now : Nat) (io : Option Nat)
        (h' : History) (r : List Line),
        h.lines ≠ [] →
        h.write_line l false now io = Except.ok (h', r) →
        h'.lines.length = h.lines.length ∧
          h'.lines = h.lines.dropLast ++ [l]) ∧
    (∀ (h : History) (l : Line) (now : Nat) (io : Option Nat)
        (h' : History) (r : List Line),
        h.lines = [] →
        h.write_line l false now io = Except.ok (h', r) →
        h'.lines = [l]) ∧
    (∀ (envs : List TickEnv) (height t0 : Nat) (h0 : History)
        (s : AppState) (out : List Line),
        History.new height t0 = some h0 →
        envs ≠ [] →
        (∀ e ∈ envs, e.input = none ∧ e.ioError = none) →
        runLoop (initState h0 t0) envs = Except.ok (s, out) →
        s.history.lines.length = 1) := by
  refine ⟨?_, ?_, ?_⟩
  · intro h l now io h' r hne hw
    obtain ⟨hl, -⟩ := write_line_replace hw
    constructor
    · rw [hl]
      simp only [List.length_append, List.length_dropLast, List.length_cons,
        List.length_nil]
      have := List.length_pos.mpr hne
      omega
    · exact hl
  · intro h l now io h' r hnil hw
    obtain ⟨hl, -⟩ := write_line_replace hw
    rw [hl, hnil]
    rfl
  · -- preservation: once length is 1 and running, idle ticks keep it 1
    have preserve : ∀ (envs : List TickEnv) (s : AppState)
        (s' : AppState) (out : List Line),
        s.paused = false → s.history.lines.length = 1 →
        (∀ e ∈ envs, e.input = none ∧ e.ioError = none) →
        runLoop s envs = Except.ok (s', out) →
        s'.history.lines.length = 1 := by
      intro envs
      induction envs with
      | nil =>
        intro s s' out hp h1 _ hr
        simp only [runLoop, Except.ok.injEq, Prod.mk.injEq] at hr
        obtain ⟨rfl, rfl⟩ := hr
        exact h1
      | cons env rest ih =>
        intro s s' out hp h1 hidle hr
        obtain ⟨hie, hio⟩ := hidle env (List.mem_cons_self env rest)
        unfold runLoop at hr
        cases ht : tick s env with
        | error e => simp [ht] at hr
        | ok p =>
          obtain ⟨s1, q, out1⟩ := p
          simp only [ht] at hr
          obtain ⟨hp1, hl1⟩ := tick_idle_running hp hie ht
          have hlen1 : s1.history.lines.length = 1 := by
            rw [hl1]
            simp only [List.length_append, List.length_dropLast,
              List.length_cons, List.length_nil]
            omega
          cases q with
          | true =>
            simp only [if_pos, Except.ok.injEq, Prod.mk.injEq] at hr
            obtain ⟨rfl, rfl⟩ := hr
            exact hlen1
          | false =>
            simp only [Bool.false_eq_true, if_false] at hr
            cases hrest : runLoop s1 rest with
            | error e => simp [hrest] at hr
            | ok p2 =>
              obtain ⟨s2, out2⟩ := p2
              simp only [hrest, Except.ok.injEq, Prod.mk.injEq] at hr
              obtain ⟨rfl, rfl⟩ := hr
              exact ih s1 _ _ hp1 hlen1
                (fun e he => hidle e (List.mem_cons_of_mem env he)) hrest
    intro envs height t0 h0 s out hnew hne hidle hr
    cases envs with
    | nil => exact absurd rfl hne
    | cons env rest =>
      obtain ⟨hie, hio⟩ := hidle env (List.mem_cons_self env rest)
      have hh0 : h0.lines = [] := by
        unfold History.new at hnew
        split at hnew
        · exact absurd hnew (by simp)
        · simp only [Option.some.injEq] at hnew
          rw [← hnew]
      unfold runLoop at hr
      cases ht : tick (initState h0 t0) env with
      | error e => simp [ht] at hr
      | ok p =>
        obtain ⟨s1, q, out1⟩ := p
        simp only [ht] at hr
        obtain ⟨hp1, hl1⟩ := tick_idle_running rfl hie ht
        have hlen1 : s1.history.lines.length = 1 := by
          rw [hl1]
          simp only [initState, hh0]
          rfl
        cases q with
        | true =>
          simp only [if_pos, Except.ok.injEq, Prod.mk.injEq] at hr
          obtain ⟨rfl, rfl⟩ := hr
          exact hlen1
        | false =>
          simp only [Bool.false_eq_true, if_false] at hr
          cases hrest : runLoop s1 rest with
          | error e => simp [hrest] at hr
          | ok p2 =>
            obtain ⟨s2, out2⟩ := p2
            simp only [hrest, Except.ok.injEq, Prod.mk.injEq] at hr
            obtain ⟨rfl, rfl⟩ := hr
            exact preserve rest s1 _ _ hp1 hlen1
              (fun e he => hidle e (List.mem_cons_of_mem env he)) hrest

/-- One `write_line` call's arguments, for reasoning about arbitrary
sequences of buffer writes. -/
structure WriteOp where
  line : Line
  advance : Bool
  now : Nat
  ioError : Option Nat
deriving Repr, DecidableEq

/-- Folds a sequence of `write_line` calls over a buffer, stopping at the
first I/O error (as the surrounding program would). -/
def writeSeq : History → List WriteOp → Except Nat History
  | h, [] => Except.ok h
  | h, op :: rest =>
    match h.write_line op.line op.advance op.now op.ioError with
    | Except.error e => Except.error e
    | Except.ok (h', _) => writeSeq h' rest

/-- A buffer with capacity 0 (terminal height exactly 6), for the C4
counterexample. -/
def c4H : History :=
  { lines := [], start_row := 4, max_rows := 0, fileContent := [],
    last_save := 0 }

/-- C4 counterexample: with `max_rows = 0` (a 6-row terminal) a single
append write produces a buffer of length 1 > 0 = capacity, so
`len(entries) <= capacity` does not hold for *every* buffer state. -/
theorem c4_counterexample :
    c4H.max_rows = 0 ∧
      (c4H.write_line (Line.from_duration "Elapsed:" 0) true 0 none).map
        (fun p => p.1.lines.length) = Except.ok 1 :=
  ⟨rfl, rfl⟩

theorem write_line_len_le {h : History} {l : Line} {adv : Bool} {now : Nat}
    {io : Option Nat} {h' : History} {r : List Line}
    (hcap : 1 ≤ h.max_rows) (hlt : h.max_rows < 65536)
    (hlen : h.lines.length ≤ h.max_rows)
    (hw : h.write_line l adv now io = Except.ok (h', r)) :
    h'.lines.length ≤ h.max_rows := by
  cases adv with
  | false =>
    obtain ⟨hl, -⟩ := write_line_replace hw
    rw [hl]
    simp only [List.length_append, List.length_dropLast, List.length_cons,
      List.length_nil]
    omega
  | true =>
    obtain ⟨-, -, -, hsplit⟩ := write_line_append hw
    rw [Nat.mod_eq_of_lt (by omega)] at hsplit
    split at hsplit
    · obtain ⟨hl, -⟩ := hsplit
      rw [hl]
      simp only [List.length_append, List.length_cons, List.length_nil]
      omega
    · obtain ⟨hl, -⟩ := hsplit
      rw [hl]
      simp only [List.length_append, List.length_tail, List.length_cons,
        List.length_nil]
      omega

/-- C4 amended: as long as the capacity is at least 1 (terminal height at
least 7), the bound `len ≤ capacity` is an invariant of every single
write and of every sequence of writes; an append at capacity evicts
exactly the oldest (front) entry, keeping the length at capacity; and a
Replace write never evicts the oldest entry (with at least two entries
the front entry survives; a Replace only ever swaps out the last one). -/
theorem c4_capacity_invariant :
    (∀ (h : History) (l : Line) (adv : Bool) (now : Nat) (io : Option Nat)
        (h' : History) (r : List Line),
        1 ≤ h.max_rows → h.max_rows < 65536 → h.lines.length ≤ h.max_rows →
        h.write_line l adv now io = Except.ok (h', r) →
        h'.lines.length ≤ h.max_rows) ∧
    (∀ (h : History) (l : Line) (now : Nat) (io : Option Nat)
        (h' : History) (r : List Line),
        1 ≤ h.max_rows → h.max_rows < 65536 →
        h.lines.length = h.max_rows →
        h.write_line l true now io = Except.ok (h', r) →
        h'.lines = h.lines.tail ++ [l] ∧ h'.lines.length = h.max_rows) ∧
    (∀ (h : History) (l : Line) (now : Nat) (io : Option Nat)
        (h' : History) (r : List Line),
        2 ≤ h.lines.length →
        h.write_line l false now io = Except.ok (h', r) →
        h'.lines.head? = h.lines.head? ∧
          h'.lines = h.lines.dropLast ++ [l]) ∧
    (∀ (ops : List WriteOp) (h : History) (h' : History),
        1 ≤ h.max_rows → h.max_rows < 65536 → h.lines.length ≤ h.max_rows →
        writeSeq h ops = Except.ok h' →
        h'.lines.length ≤ h'.max_rows ∧ h'.max_rows = h.max_rows) := by
  refine ⟨fun h l adv now io h' r hcap hlt hlen hw =>
    write_line_len_le hcap hlt hlen hw, ?_, ?_, ?_⟩
  · intro h l now io h' r hcap hlt hlen hw
    obtain ⟨-, -, -, hsplit⟩ := write_line_append hw
    rw [Nat.mod_eq_of_lt (by omega), hlen, if_neg (lt_irrefl _)] at hsplit
    obtain ⟨hl, -⟩ := hsplit
    refine ⟨hl, ?_⟩
    rw [hl]
    simp only [List.length_append, List.length_tail, List.length_cons,
      List.length_nil]
    omega
  · intro h l now io h' r hlen hw
    obtain ⟨hl, -⟩ := write_line_replace hw
    refine ⟨?_, hl⟩
    rw [hl]
    match hm : h.lines, hlen with
    | x :: y :: t, _ =>
      simp [List.dropLast]
  · intro ops
    induction ops with
    | nil =>
      intro h h' hcap hlt hlen hw
      simp only [writeSeq, Except.ok.injEq] at hw
      rw [← hw]
      exact ⟨hlen, rfl⟩
    | cons op rest ih =>
      intro h h' hcap hlt hlen hw
      unfold writeSeq at hw
      cases hw1 : h.write_line op.line op.advance op.now op.ioError with
      | error e => simp [hw1] at hw
      | ok p =>
        obtain ⟨h1, r1⟩ := p
        simp only [hw1] at hw
        obtain ⟨hmr, -⟩ := write_line_frame hw1
        have h1len : h1.lines.length ≤ h1.max_rows := by
          rw [hmr]
          exact write_line_len_le hcap hlt hlen hw1
        obtain ⟨ha, hb⟩ := ih h1 h' (hmr ▸ hcap) (hmr ▸ hlt) h1len hw
        exact ⟨ha, hb.trans hmr⟩

/-- C10: `History::new` computes the capacity with the unchecked `u16`
subtraction `terminal_height - 6`, well-defined only when the height is
at least 6 (the model returns `none` on underflow), in which case the
capacity is exactly `height - 6`; and with capacity 0 a single append
write yields a buffer of length 1, violating `len ≤ capacity` — so the
capacity bound is an invariant only under the precondition
`capacity ≥ 1`. -/
theorem c10_capacity_preconditions :
    (∀ (height now : Nat), height < 6 → History.new height now = none) ∧
    (∀ (height now : Nat) (h0 : History), History.new height now = some h0 →
      6 ≤ height ∧ h0.max_rows = height - 6) ∧
    (∀ (h : History) (l : Line) (now : Nat) (io : Option Nat)
        (h' : History) (r : List Line),
        h.max_rows = 0 → h.lines = [] →
        h.write_line l true now io = Except.ok (h', r) →
        h'.lines.length = 1 ∧ ¬ h'.lines.length ≤ h.max_rows) := by
  refine ⟨?_, ?_, ?_⟩
  · intro height now hlt
    simp [History.new, hlt]
  · intro height now h0 hnew
    unfold History.new at hnew
    by_cases h6 : height < 6
    · rw [if_pos h6] at hnew
      exact absurd hnew (by simp)
    · rw [if_neg h6] at hnew
      simp only [Option.some.injEq] at hnew
      exact ⟨by omega, by rw [← hnew]⟩
  · intro h l now io h' r hmr hnil hw
    obtain ⟨-, -, -, hsplit⟩ := write_line_append hw
    rw [hnil, hmr] at hsplit
    simp only [List.length_nil, Nat.zero_mod, lt_irrefl, if_false] at hsplit
    obtain ⟨hl, -⟩ := hsplit
    rw [hl, hmr]
    simp

/-- A 16-row terminal gives capacity 10; `c10H` has capacity 0. Inputs
for the C10 witness. -/
def c10H16 : History :=
  { lines := [], start_row := 4, max_rows := 10, fileContent := [],
    last_save := 0 }

def c10H : History :=
  { lines := [], start_row := 4, max_rows := 0, fileContent := [],
    last_save := 17 }

def c10L : Line := Line.from_duration "Elapsed:" 0

/-- The buffer `c10H.write_line c10L true 42 none` produces. -/
def c10Happ : History :=
  { lines := [c10L], start_row := 4, max_rows := 0, fileContent := [],
    last_save := 42 }

theorem c10_witness :
    History.new 5 0 = none ∧
      (6 ≤ 16 ∧ c10H16.max_rows = 16 - 6) ∧
      (c10Happ.lines.length = 1 ∧ ¬ c10Happ.lines.length ≤ c10H.max_rows) :=
  ⟨c10_capacity_preconditions.1 5 0 (by decide),
    c10_capacity_preconditions.2.1 16 0 c10H16 rfl,
    c10_capacity_preconditions.2.2 c10H c10L 42 none c10Happ [c10L] rfl rfl rfl⟩

/-- Inputs for C3: a buffer holding one `"Elapsed:"` line receives an
append of a `"Paused at:"` line. -/
def c3H : History :=
  { lines := [Line.from_duration "Elapsed:" 1000], start_row := 4,
    max_rows := 10, fileContent := [], last_save := 0 }

def c3L : Line := Line.from_datetime "Paused at:" (12, 0, 3)

/-- The buffer `c3H.write_line c3L true 0 none` produces. -/
def c3H' : History :=
  { lines := [Line.from_duration "Elapsed:" 1000, c3L], start_row := 4,
    max_rows := 10, fileContent := ["Elapsed: 00:00:01"], last_save := 0 }

/-- C3 counterexample: `update_history` runs *before* the buffer
mutation inside `write_line`, so immediately after an append the file
holds the pre-append sequence and misses the just-appended entry: here
the file has one line while the buffer serializes to two. -/
theorem c3_counterexample :
    c3H.write_line c3L true 0 none = Except.ok (c3H', [c3L]) ∧
      c3H'.fileContent = ["Elapsed: 00:00:01"] ∧
      c3H'.lines.map Line.serialize
        = ["Elapsed: 00:00:01", "Paused at: 12:00:03"] ∧
      c3H'.fileContent ≠ c3H'.lines.map Line.serialize :=
  ⟨rfl, rfl, rfl, by decide⟩

/-- C3 amended: immediately after an append write, the log file equals
the full serialization — one line `"<label> <HH:MM:SS>"` per entry, in
buffer order, replacing any prior content (full rewrite, never appended
across calls) — of the buffer *as it was before the append*: it lags the
in-memory sequence by exactly the appended entry (below capacity, it
equals the current sequence minus its last element). -/
theorem c3_append_rewrites_file_with_preceding_buffer :
    ∀ (h : History) (l : Line) (now : Nat) (io : Option Nat)
      (h' : History) (r : List Line),
      h.write_line l true now io = Except.ok (h', r) →
      h'.fileContent = h.lines.map Line.serialize ∧
        (∀ s ∈ h'.fileContent, ∃ l0 ∈ h.lines,
          s = l0.message ++ " " ++ l0.timestamp) ∧
        (h.lines.length % 65536 < h.max_rows →
          h'.fileContent = h'.lines.dropLast.map Line.serialize) := by
  intro h l now io h' r hw
  obtain ⟨-, hfile, -, hsplit⟩ := write_line_append hw
  refine ⟨hfile, ?_, ?_⟩
  · intro s hs
    rw [hfile] at hs
    obtain ⟨l0, hl0, rfl⟩ := List.mem_map.mp hs
    exact ⟨l0, hl0, rfl⟩
  · intro hlt
    rw [if_pos hlt] at hsplit
    obtain ⟨hl, -⟩ := hsplit
    rw [hfile, hl, List.dropLast_concat]

theorem c3_witness :
    c3H'.fileContent = c3H.lines.map Line.serialize ∧
      c3H'.fileContent = c3H'.lines.dropLast.map Line.serialize :=
  ⟨(c3_append_rewrites_file_with_preceding_buffer c3H c3L 0 none c3H'
      [c3L] rfl).1,
    (c3_append_rewrites_file_with_preceding_buffer c3H c3L 0 none c3H'
      [c3L] rfl).2.2 (by decide)⟩

/-- Inputs for C1: a running state whose buffer holds one line (the
live ticking row) receives a `' '` toggle. -/
def c1H : History :=
  { lines := [Line.from_duration "Elapsed:" 1000], start_row := 4,
    max_rows := 10, fileContent := [], last_save := 0 }

def c1S : AppState :=
  { running_total := 0, start := 0, paused := false, history := c1H }

def c1Env : TickEnv :=
  { now := 2000, wall := (9, 30, 2), input := some ' ', ioError := none }

/-- C1 counterexample: the toggle's event entry goes through `write_line`
with `advance = false` (replace), not append, so a single toggle on a
non-empty buffer below capacity grows it by exactly 1, not 2: here the
length goes from 1 to 2. -/
theorem c1_counterexample :
    c1S.history.lines.length = 1 ∧
      (tick c1S c1Env).map (fun p => p.1.history.lines.length)
        = Except.ok 2 :=
  ⟨rfl, rfl⟩

/-- C1 amended: on a toggle (`'p'` or `' '`), the wall-clock event entry
("Paused at"/"Resumed at") is written in *replace* mode — overwriting the
buffer's current last row (while running, the live ticking `"Elapsed:"`
line written earlier in the same iteration) — and only the `"Elapsed:"`
snapshot immediately after it is written in append mode. With a
non-empty buffer strictly below capacity, a single toggle therefore
increases the buffer length by exactly 1 (not 2); the event entry and
the snapshot are rendered in that order and end up as the buffer's last
two entries. -/
theorem c1_toggle_replaces_then_appends :
    ∀ (s : AppState) (env : TickEnv) (c : Char) (s' : AppState) (q : Bool)
      (out : List Line),
      env.input = some c → (c = 'p' ∨ c = ' ') →
      s.history.lines ≠ [] →
      s.history.lines.length < s.history.max_rows →
      s.history.max_rows < 65536 →
      tick s env = Except.ok (s', q, out) →
      q = false ∧
        s'.history.lines.length = s.history.lines.length + 1 ∧
        out = (if s.paused then [] else [tickLine s env]) ++
          [if s.paused then resumedLine env else pausedLine env,
            if s.paused then resumeSnapLine s else pauseSnapLine s env] ∧
        s'.history.lines = s.history.lines.dropLast ++
          [if s.paused then resumedLine env else pausedLine env,
            if s.paused then resumeSnapLine s else pauseSnapLine s env] := by
  intro s env c s' q out hi htg hne hlt hmr ht
  have hnlen : 0 < s.history.lines.length := List.length_pos.mpr hne
  rcases tick_ok_cases ht with
    ⟨hp, hi', _, _, _⟩ |
    ⟨hp, hi', _, _, _⟩ |
    ⟨hp, ⟨c', hc', hq', hng⟩, _, _, _⟩ |
    ⟨hp, hc, h1, r1, h2, r2, hw1, hw2, rfl, rfl, rfl⟩ |
    ⟨hp, h, r, hw, hrest⟩
  · rw [hi] at hi'
    exact absurd hi' (by simp)
  · rw [hi, Option.some.injEq] at hi'
    subst hi'
    rcases htg with hh | hh <;> exact absurd hh (by decide)
  · rw [hi, Option.some.injEq] at hc'
    subst hc'
    exact absurd htg hng
  · -- Paused → Running (resume): replace "Resumed at", append snapshot
    obtain ⟨hl1, hr1⟩ := write_line_replace hw1
    obtain ⟨hmr1, -⟩ := write_line_frame hw1
    have hlen1 : h1.lines.length = s.history.lines.length := by
      rw [hl1]
      simp only [List.length_append, List.length_dropLast, List.length_cons,
        List.length_nil]
      omega
    obtain ⟨-, -, -, hsplit⟩ := write_line_append hw2
    rw [hlen1, hmr1, Nat.mod_eq_of_lt (by omega), if_pos hlt] at hsplit
    obtain ⟨hl2, hr2⟩ := hsplit
    subst hr1 hr2
    refine ⟨rfl, ?_, ?_, ?_⟩
    · show h2.lines.length = _
      rw [hl2, List.length_append, hlen1]
      rfl
    · simp [hp, resumedLine, resumeSnapLine]
    · show h2.lines = _
      rw [hl2, hl1]
      simp [hp, resumedLine, resumeSnapLine]
  · -- Running → Paused: tick replace, replace "Paused at", append snapshot
    rcases hrest with ⟨hi', _, _, _⟩ | ⟨hi', _, _, _⟩ |
      ⟨⟨c', hc', hq', hng⟩, _, _, _⟩ |
      ⟨hc, h1, r1, h2, r2, hw1, hw2, rfl, rfl, rfl⟩
    · rw [hi] at hi'
      exact absurd hi' (by simp)
    · rw [hi, Option.some.injEq] at hi'
      subst hi'
      rcases htg with hh | hh <;> exact absurd hh (by decide)
    · rw [hi, Option.some.injEq] at hc'
      subst hc'
      exact absurd htg hng
    · obtain ⟨hl0, hr0⟩ := write_line_replace hw
      obtain ⟨hmr0, -⟩ := write_line_frame hw
      obtain ⟨hl1, hr1⟩ := write_line_replace hw1
      obtain ⟨hmr1, -⟩ := write_line_frame hw1
      have hl1' : h1.lines = s.history.lines.dropLast ++ [pausedLine env] := by
        rw [hl1, hl0, List.dropLast_concat]
      have hlen1 : h1.lines.length = s.history.lines.length := by
        rw [hl1']
        simp only [List.length_append, List.length_dropLast, List.length_cons,
          List.length_nil]
        omega
      obtain ⟨-, -, -, hsplit⟩ := write_line_append hw2
      rw [hlen1, hmr1, hmr0, Nat.mod_eq_of_lt (by omega), if_pos hlt]
        at hsplit
      obtain ⟨hl2, hr2⟩ := hsplit
      subst hr0 hr1 hr2
      refine ⟨rfl, ?_, ?_, ?_⟩
      · show h2.lines.length = _
        rw [hl2, List.length_append, hlen1]
        rfl
      · simp [hp, tickLine, pausedLine, pauseSnapLine]
      · show h2.lines = _
        rw [hl2, hl1']
        simp [hp, pausedLine, pauseSnapLine]

/-- The state and render trace `tick c1S c1Env` produces. -/
def c1S' : AppState :=
  { running_total := 2000, start := 0, paused := true,
    history :=
      { lines :=
          [{ message := "Paused at:", timestamp := "09:30:02",
             color := Color.Red, bold := false, italic := false },
           { message := "Elapsed:", timestamp := "00:00:02",
             color := Color.Reset, bold := false, italic := true }],
        start_row := 4, max_rows := 10,
        fileContent := ["Paused at: 09:30:02"], last_save := 2000 } }

def c1Out : List Line :=
  [{ message := "Elapsed:", timestamp := "00:00:02", color := Color.Reset,
     bold := true, italic := false },
   { message := "Paused at:", timestamp := "09:30:02", color := Color.Red,
     bold := false, italic := false },
   { message := "Elapsed:", timestamp := "00:00:02", color := Color.Reset,
     bold := false, italic := true }]

theorem c1_witness :
    (false : Bool) = false ∧
      c1S'.history.lines.length = c1S.history.lines.length + 1 ∧
      c1Out = (if c1S.paused then [] else [tickLine c1S c1Env]) ++
        [if c1S.paused then resumedLine c1Env else pausedLine c1Env,
          if c1S.paused then resumeSnapLine c1S else pauseSnapLine c1S c1Env] ∧
      c1S'.history.lines = c1S.history.lines.dropLast ++
        [if c1S.paused then resumedLine c1Env else pausedLine c1Env,
          if c1S.paused then resumeSnapLine c1S else pauseSnapLine c1S c1Env] :=
  c1_toggle_replaces_then_appends c1S c1Env ' ' c1S' false c1Out rfl
    (Or.inr rfl) (by decide) (by decide) (by decide) rfl

/-- Concrete buffers for the C2 witness. -/
def c2wL : Line := Line.from_duration "Elapsed:" 3000

def c2wH : History :=
  { lines := [Line.from_duration "Elapsed:" 1000, Line.from_duration "Elapsed:" 2000],
    start_row := 4, max_rows := 10, fileContent := [], last_save := 0 }

/-- `c2wH` after a replace write of `c2wL`. -/
def c2wH' : History :=
  { lines := [Line.from_duration "Elapsed:" 1000, c2wL],
    start_row := 4, max_rows := 10, fileContent := [], last_save := 0 }

/-- The empty buffer `c2H0` after a replace write of `c2wL`. -/
def c2eH' : History :=
  { lines := [c2wL], start_row := 4, max_rows := 10, fileContent := [],
    last_save := 0 }

/-- Final state and trace of `runLoop c2S c2Envs` (five idle ticks). -/
def c2RunS : AppState :=
  { running_total := 0, start := 0, paused := false,
    history :=
      { lines :=
          [{ message := "Elapsed:", timestamp := "00:00:00",
             color := Color.Reset, bold := true, italic := false }],
        start_row := 4, max_rows := 10, fileContent := [], last_save := 0 } }

def c2RunOut : List Line :=
  List.replicate 5
    { message := "Elapsed:", timestamp := "00:00:00", color := Color.Reset,
      bold := true, italic := false }

theorem c2_witness :
    (c2wH'.lines.length = c2wH.lines.length ∧
        c2wH'.lines = c2wH.lines.dropLast ++ [c2wL]) ∧
      c2eH'.lines = [c2wL] ∧
      c2RunS.history.lines.length = 1 :=
  ⟨c2_replace_never_grows_nonempty.1 c2wH c2wL 0 none c2wH' [c2wL]
      (by decide) rfl,
    c2_replace_never_grows_nonempty.2.1 c2H0 c2wL 0 none c2eH' [c2wL]
      rfl rfl,
    c2_replace_never_grows_nonempty.2.2 c2Envs 16 0 c2H0 c2RunS c2RunOut
      rfl (by decide) (by decide) rfl⟩

/-- Concrete buffers and write sequence for the C4 witness
(capacity 3). -/
def c4wD : Line := Line.from_duration "Elapsed:" 4000

def c4wH : History :=
  { lines := [Line.from_duration "Elapsed:" 1000,
      Line.from_duration "Elapsed:" 2000],
    start_row := 4, max_rows := 3, fileContent := [], last_save := 0 }

/-- `c4wH` after appending `c4wD`. -/
def c4wH1 : History :=
  { lines := [Line.from_duration "Elapsed:" 1000,
      Line.from_duration "Elapsed:" 2000, c4wD],
    start_row := 4, max_rows := 3,
    fileContent := ["Elapsed: 00:00:01", "Elapsed: 00:00:02"],
    last_save := 0 }

/-- A buffer at capacity (3 of 3). -/
def c4capH : History :=
  { lines := [Line.from_duration "Elapsed:" 1000,
      Line.from_duration "Elapsed:" 2000, Line.from_duration "Elapsed:" 3000],
    start_row := 4, max_rows := 3, fileContent := [], last_save := 0 }

/-- `c4capH` after appending `c4wD`: the oldest entry was evicted. -/
def c4capH' : History :=
  { lines := [Line.from_duration "Elapsed:" 2000,
      Line.from_duration "Elapsed:" 3000, c4wD],
    start_row := 4, max_rows := 3,
    fileContent := ["Elapsed: 00:00:01", "Elapsed: 00:00:02",
      "Elapsed: 00:00:03"],
    last_save := 5 }

/-- `c4wH` after a replace write of `c4wD`. -/
def c4wHrep : History :=
  { lines := [Line.from_duration "Elapsed:" 1000, c4wD],
    start_row := 4, max_rows := 3, fileContent := [], last_save := 0 }

def c4ops : List WriteOp :=
  [⟨c4wD, true, 0, none⟩,
   ⟨Line.from_duration "Elapsed:" 3000, false, 3, none⟩,
   ⟨Line.from_duration "Elapsed:" 2000, true, 4, none⟩]

/-- `writeSeq c4wH c4ops`: append, replace, then an append that evicts. -/
def c4seqH' : History :=
  { lines := [Line.from_duration "Elapsed:" 2000,
      Line.from_duration "Elapsed:" 3000, Line.from_duration "Elapsed:" 2000],
    start_row := 4, max_rows := 3,
    fileContent := ["Elapsed: 00:00:01", "Elapsed: 00:00:02",
      "Elapsed: 00:00:03"],
    last_save := 4 }

theorem c4_witness :
    c4wH1.lines.length ≤ c4wH.max_rows ∧
      (c4capH'.lines = c4capH.lines.tail ++ [c4wD] ∧
        c4capH'.lines.length = c4capH.max_rows) ∧
      (c4wHrep.lines.head? = c4wH.lines.head? ∧
        c4wHrep.lines = c4wH.lines.dropLast ++ [c4wD]) ∧
      (c4seqH'.lines.length ≤ c4seqH'.max_rows ∧
        c4seqH'.max_rows = c4wH.max_rows) :=
  ⟨c4_capacity_invariant.1 c4wH c4wD true 0 none c4wH1 [c4wD]
      (by decide) (by decide) (by decide) rfl,
    c4_capacity_invariant.2.1 c4capH c4wD 5 none c4capH'
      [Line.from_duration "Elapsed:" 2000, Line.from_duration "Elapsed:" 3000,
        c4wD]
      (by decide) (by decide) rfl rfl,
    c4_capacity_invariant.2.2.1 c4wH c4wD 0 none c4wHrep [c4wD]
      (by decide) rfl,
    c4_capacity_invariant.2.2.2 c4ops c4wH c4seqH' (by decide) (by decide)
      (by decide) rfl⟩

/-! ## Duration display (C7) -/

/-- C7 counterexample: the `as u8` casts wrap each display field modulo
256. A 100-hour duration renders `"100:00:00"` — the hours field is 100,
outside 0–99 (and three digits wide) — and a 256-hour duration renders
`"00:00:00"` although the raw quotient `secs / 3600` is 256, so the
displayed triple is *not* the un-reduced
`(secs / 3600, (secs % 3600) / 60, secs % 60)`. -/
theorem c7_counterexample :
    (Line.from_duration "Elapsed:" (360000 * 1000)).timestamp
        = "100:00:00" ∧
      ¬ 360000 / 3600 ≤ 99 ∧
      (Line.from_duration "Elapsed:" (921600 * 1000)).timestamp
        = "00:00:00" ∧
      921600 / 3600 = 256 ∧ (921600 / 3600) % 256 = 0 :=
  ⟨rfl, by decide, rfl, by decide, by decide⟩

/-- C7 amended: for a duration of `d` milliseconds (`secs = d / 1000`),
the displayed triple is `((secs / 3600) % 256, (secs % 3600) / 60,
secs % 60)`: the `as u8` casts reduce every field modulo 256, which is
invisible on minutes and seconds (always ≤ 59) but caps hours at 255 and
wraps them at 256. Hours below 256 are the raw quotient — in particular
they are *not* wrapped modulo 24, so a 30-hour duration prints
`"30:00:00"` — and each field is rendered zero-padded to a minimum width
of two (exactly two digits for values up to 99). -/
theorem c7_duration_display :
    (∀ (m : String) (d : Nat),
        Line.from_duration m d =
          Line.new m ((d / 1000 / 3600) % 256, (d / 1000 % 3600) / 60,
            d / 1000 % 60) ∧
          (d / 1000 / 3600) % 256 ≤ 255 ∧
          (d / 1000 % 3600) / 60 ≤ 59 ∧
          d / 1000 % 60 ≤ 59 ∧
          (d / 1000 / 3600 < 256 →
            (d / 1000 / 3600) % 256 = d / 1000 / 3600)) ∧
    (∀ n : Nat, n < 100 → (pad2 n).length = 2) ∧
    (Line.from_duration "Elapsed:" (108000 * 1000)).timestamp = "30:00:00" := by
  refine ⟨?_, ?_, rfl⟩
  · intro m d
    have h1 : d / 1000 % 3600 < 3600 := Nat.mod_lt _ (by norm_num)
    have h2 : (d / 1000 % 3600) / 60 < 60 := Nat.div_lt_of_lt_mul (by omega)
    have h3 : d / 1000 % 60 < 60 := Nat.mod_lt _ (by norm_num)
    have h4 : (d / 1000 / 3600) % 256 < 256 := Nat.mod_lt _ (by norm_num)
    refine ⟨?_, by omega, by omega, by omega, fun hlt => Nat.mod_eq_of_lt hlt⟩
    unfold Line.from_duration
    rw [Nat.mod_eq_of_lt (show (d / 1000 % 3600) / 60 < 256 by omega),
      Nat.mod_eq_of_lt (show d / 1000 % 60 < 256 by omega)]
  · intro n hn
    interval_cases n <;> rfl

theorem c7_witness :
    (Line.from_duration "Elapsed:" 3723000 =
        Line.new "Elapsed:" ((3723000 / 1000 / 3600) % 256,
          (3723000 / 1000 % 3600) / 60, 3723000 / 1000 % 60) ∧
      (3723000 / 1000 / 3600) % 256 ≤ 255 ∧
      (3723000 / 1000 % 3600) / 60 ≤ 59 ∧
      3723000 / 1000 % 60 ≤ 59 ∧
      (3723000 / 1000 / 3600 < 256 →
        (3723000 / 1000 / 3600) % 256 = 3723000 / 1000 / 3600)) ∧
    (pad2 7).length = 2 :=
  ⟨c7_duration_display.1 "Elapsed:" 3723000,
    c7_duration_display.2.1 7 (by decide)⟩

/-! ## The displayed elapsed value (C6) -/

/-- The timestamp of the last `"Elapsed:"` line in a render trace,
starting from a previous screen state `init`. -/
def lastElapsedFrom (init : Option String) (out : List Line) : Option String :=
  out.foldl
    (fun acc l => if l.message = "Elapsed:" then some l.timestamp else acc)
    init

/-- The timestamp of the last `"Elapsed:"` line rendered so far: the
elapsed value currently visible on screen. -/
def lastElapsedTs (out : List Line) : Option String :=
  lastElapsedFrom none out

/-- The timestamp string a duration of `d` milliseconds displays as. -/
def durTimestamp (d : Nat) : String :=
  (Line.from_duration "Elapsed:" d).timestamp

theorem lastElapsedFrom_append (i : Option String) (a b : List Line) :
    lastElapsedFrom i (a ++ b) = lastElapsedFrom (lastElapsedFrom i a) b :=
  List.foldl_append _ _ _ _

theorem lastElapsedFrom_init_irrel (b : List Line) :
    ∀ (v : String), lastElapsedFrom none b = some v →
      ∀ (i : Option String), lastElapsedFrom i b = some v := by
  induction b with
  | nil =>
    intro v hb i
    simp [lastElapsedFrom] at hb
  | cons x t ih =>
    intro v hb i
    by_cases hx : x.message = "Elapsed:"
    · simp only [lastElapsedFrom, List.foldl_cons, if_pos hx] at hb ⊢
      exact hb
    · simp only [lastElapsedFrom, List.foldl_cons, if_neg hx] at hb ⊢
      exact ih v hb i

theorem lastElapsedFrom_concat (i : Option String) (xs : List Line)
    (l : Line) :
    lastElapsedFrom i (xs ++ [l]) =
      if l.message = "Elapsed:" then some l.timestamp
      else lastElapsedFrom i xs := by
  rw [lastElapsedFrom_append]
  rfl

/-- What the current tick leaves on screen as the elapsed value: if the
tick rendered an `"Elapsed:"` line, the last one rendered; otherwise
whatever was already on screen. -/
theorem lastElapsedTs_extend {out : List Line} {v : String}
    (h : lastElapsedTs out = some v) (acc : List Line) :
    lastElapsedTs (acc ++ out) = some v := by
  rw [lastElapsedTs, lastElapsedFrom_append]
  exact lastElapsedFrom_init_irrel out v h _

theorem lastElapsedFrom_concat_elapsed (i : Option String) (xs : List Line)
    {l : Line} (hl : l.message = "Elapsed:") :
    lastElapsedFrom i (xs ++ [l]) = some l.timestamp := by
  rw [lastElapsedFrom_concat, if_pos hl]

/-- The elapsed value that should be on screen after a tick with
environment `env` ended in state `s`: the committed total while paused,
the live total while running. -/
def dispElapsed (s : AppState) (env : TickEnv) : String :=
  if s.paused then durTimestamp s.running_total
  else durTimestamp (s.running_total + (env.now - s.start))

/-- Per-tick display update: a non-quitting successful tick either
renders nothing (paused and idle), or its trace's last `"Elapsed:"` line
shows exactly `dispElapsed` of the post-tick state. -/
theorem tick_display {s : AppState} {env : TickEnv} {s' : AppState}
    {q : Bool} {out : List Line}
    (hq : env.input ≠ some 'q')
    (ht : tick s env = Except.ok (s', q, out)) :
    q = false ∧
      ((s' = s ∧ out = [] ∧ s.paused = true) ∨
        lastElapsedTs out = some (dispElapsed s' env)) := by
  rcases tick_ok_cases ht with
    ⟨hp, hi, rfl, rfl, rfl⟩ | ⟨hp, hi, _, _, _⟩ |
    ⟨hp, hc, rfl, rfl, rfl⟩ |
    ⟨hp, hc, h1, r1, h2, r2, hw1, hw2, rfl, rfl, rfl⟩ |
    ⟨hp, h, r, hw, hrest⟩
  · exact ⟨rfl, Or.inl ⟨rfl, rfl, hp⟩⟩
  · exact absurd hi hq
  · exact ⟨rfl, Or.inl ⟨rfl, rfl, hp⟩⟩
  · -- Paused → Running (resume)
    obtain ⟨hl1, hr1⟩ := write_line_replace hw1
    obtain ⟨-, -, -, hsplit⟩ := write_line_append hw2
    refine ⟨rfl, Or.inr ?_⟩
    subst hr1
    have hsnap : ∃ xs, r2 = xs ++ [resumeSnapLine s] := by
      split at hsplit
      · exact ⟨[], by rw [hsplit.2]; rfl⟩
      · exact ⟨h1.lines.tail, by rw [hsplit.2]⟩
    obtain ⟨xs, rfl⟩ := hsnap
    rw [← List.append_assoc, lastElapsedTs,
      lastElapsedFrom_concat_elapsed _ _ (show (resumeSnapLine s).message
        = "Elapsed:" from rfl)]
    simp [resumeSnapLine, dispElapsed, durTimestamp, Line.setColor,
      Line.setBold]
  · -- running branches
    obtain ⟨hl0, hr0⟩ := write_line_replace hw
    rcases hrest with ⟨hi, rfl, rfl, rfl⟩ | ⟨hi, _, _, _⟩ |
      ⟨hc, rfl, rfl, rfl⟩ |
      ⟨hc, h1, r1, h2, r2, hw1, hw2, rfl, rfl, rfl⟩
    · refine ⟨rfl, Or.inr ?_⟩
      subst hr0
      rw [show [tickLine s env] = ([] : List Line) ++ [tickLine s env] from rfl,
        lastElapsedTs, lastElapsedFrom_concat_elapsed _ _
          (show (tickLine s env).message = "Elapsed:" from rfl)]
      simp [tickLine, dispElapsed, hp, durTimestamp, Line.setColor,
        Line.setBold]
    · exact absurd hi hq
    · refine ⟨rfl, Or.inr ?_⟩
      subst hr0
      rw [show [tickLine s env] = ([] : List Line) ++ [tickLine s env] from rfl,
        lastElapsedTs, lastElapsedFrom_concat_elapsed _ _
          (show (tickLine s env).message = "Elapsed:" from rfl)]
      simp [tickLine, dispElapsed, hp, durTimestamp, Line.setColor,
        Line.setBold]
    · -- Running → Paused
      obtain ⟨hl1, hr1⟩ := write_line_replace hw1
      obtain ⟨-, -, -, hsplit⟩ := write_line_append hw2
      refine ⟨rfl, Or.inr ?_⟩
      subst hr0 hr1
      have hsnap : ∃ xs, r2 = xs ++ [pauseSnapLine s env] := by
        split at hsplit
        · exact ⟨[], by rw [hsplit.2]; rfl⟩
        · exact ⟨h1.lines.tail, by rw [hsplit.2]⟩
      obtain ⟨xs, rfl⟩ := hsnap
      rw [← List.append_assoc, lastElapsedTs,
        lastElapsedFrom_concat_elapsed _ _ (show (pauseSnapLine s env).message
          = "Elapsed:" from rfl)]
      simp [pauseSnapLine, dispElapsed, durTimestamp, Line.setColor,
        Line.setItalic]

/-- Display invariant over a whole run: `acc` is what was rendered
before; if paused, the screen already shows the committed total. -/
theorem runLoop_display :
    ∀ (envs : List TickEnv) (s : AppState) (acc : List Line)
      (sf : AppState) (out : List Line),
      (s.paused = true →
        lastElapsedTs acc = some (durTimestamp s.running_total)) →
      (∀ e ∈ envs, e.input ≠ some 'q') →
      runLoop s envs = Except.ok (sf, out) →
      (match envs.getLast? with
        | none => sf = s ∧ out = []
        | some e => lastElapsedTs (acc ++ out) = some (dispElapsed sf e)) := by
  intro envs
  induction envs with
  | nil =>
    intro s acc sf out hinv hq hr
    simp only [runLoop, Except.ok.injEq, Prod.mk.injEq] at hr
    obtain ⟨rfl, rfl⟩ := hr
    exact ⟨rfl, rfl⟩
  | cons env rest ih =>
    intro s acc sf out hinv hq hr
    unfold runLoop at hr
    cases ht : tick s env with
    | error e => simp [ht] at hr
    | ok p =>
      obtain ⟨s1, q, out1⟩ := p
      simp only [ht] at hr
      have hq1 : env.input ≠ some 'q' := hq env (List.mem_cons_self _ _)
      obtain ⟨rfl, hdisp⟩ := tick_display hq1 ht
      simp only [Bool.false_eq_true, if_false] at hr
      cases hrest : runLoop s1 rest with
      | error e => simp [hrest] at hr
      | ok p2 =>
        obtain ⟨s2, out2⟩ := p2
        simp only [hrest, Except.ok.injEq, Prod.mk.injEq] at hr
        obtain ⟨rfl, rfl⟩ := hr
        have hstep : lastElapsedTs (acc ++ out1)
            = some (dispElapsed s1 env) ∨ (s1 = s ∧ out1 = []) := by
          rcases hdisp with ⟨rfl, rfl, hp⟩ | hlast
          · exact Or.inr ⟨rfl, rfl⟩
          · exact Or.inl (lastElapsedTs_extend hlast acc)
        have hinv1 : s1.paused = true →
            lastElapsedTs (acc ++ out1)
              = some (durTimestamp s1.running_total) := by
          intro hp1
          rcases hstep with hlast | ⟨rfl, rfl⟩
          · rw [hlast]
            simp only [dispElapsed, hp1, if_true]
          · rw [List.append_nil]
            exact hinv hp1
        cases rest with
        | nil =>
          simp only [runLoop, Except.ok.injEq, Prod.mk.injEq] at hrest
          obtain ⟨rfl, rfl⟩ := hrest
          simp only [List.getLast?_singleton, List.append_nil]
          rcases hstep with hlast | ⟨rfl, rfl⟩
          · exact hlast
          · rcases hdisp with ⟨-, -, hp⟩ | hlast
            · rw [List.append_nil, hinv hp]
              simp only [dispElapsed, hp, if_true]
            · simp [lastElapsedTs, lastElapsedFrom] at hlast
        | cons e2 t2 =>
          have := ih s1 (acc ++ out1) s2 out2 hinv1
            (fun e he => hq e (List.mem_cons_of_mem env he)) hrest
          simp only [List.getLast?_cons_cons] at this ⊢
          cases hgl : (e2 :: t2).getLast? with
          | none => simp [List.getLast?_cons_cons] at hgl
          | some e3 =>
            rw [hgl] at this
            rw [← List.append_assoc]
            exact this

/-- C6: starting from the program's initial state, after any non-empty
run of non-quitting, successful ticks, the elapsed value on screen (the
last `"Elapsed:"` line rendered) equals `running_total + (now − start)`
if the final state is Running — `now` being the final tick's instant —
and exactly `running_total` (no drift) if it is Paused. -/
theorem c6_display_elapsed :
    ∀ (height t0 : Nat) (h0 : History) (envs : List TickEnv)
      (s : AppState) (out : List Line) (e : TickEnv),
      History.new height t0 = some h0 →
      (∀ ev ∈ envs, ev.input ≠ some 'q') →
      runLoop (initState h0 t0) envs = Except.ok (s, out) →
      envs.getLast? = some e →
      lastElapsedTs out =
        some (if s.paused then durTimestamp s.running_total
          else durTimestamp (s.running_total + (e.now - s.start))) := by
  intro height t0 h0 envs s out e hnew hq hr hlast
  have hrun := runLoop_display envs (initState h0 t0) [] s out
    (fun hp => by simp [initState] at hp) hq hr
  rw [hlast] at hrun
  simpa [dispElapsed] using hrun

/-- A concrete two-tick run (one idle tick, then a pause toggle) for the
C6 witness. -/
def c6H0 : History :=
  { lines := [], start_row := 4, max_rows := 10, fileContent := [],
    last_save := 0 }

def c6Envs : List TickEnv :=
  [{ now := 500, wall := (8, 0, 0), input := none, ioError := none },
   { now := 1500, wall := (8, 0, 1), input := some 'p', ioError := none }]

def c6E : TickEnv :=
  { now := 1500, wall := (8, 0, 1), input := some 'p', ioError := none }

/-- The final state of `runLoop (initState c6H0 0) c6Envs`. -/
def c6S : AppState :=
  { running_total := 1500, start := 0, paused := true,
    history :=
      { lines :=
          [{ message := "Paused at:", timestamp := "08:00:01",
             color := Color.Red, bold := false, italic := false },
           { message := "Elapsed:", timestamp := "00:00:01",
             color := Color.Reset, bold := false, italic := true }],
        start_row := 4, max_rows := 10,
        fileContent := ["Paused at: 08:00:01"], last_save := 1500 } }

def c6Out : List Line :=
  [{ message := "Elapsed:", timestamp := "00:00:00", color := Color.Reset,
     bold := true, italic := false },
   { message := "Elapsed:", timestamp := "00:00:01", color := Color.Reset,
     bold := true, italic := false },
   { message := "Paused at:", timestamp := "08:00:01", color := Color.Red,
     bold := false, italic := false },
   { message := "Elapsed:", timestamp := "00:00:01", color := Color.Reset,
     bold := false, italic := true }]

theorem c6_witness :
    lastElapsedTs c6Out =
      some (if c6S.paused then durTimestamp c6S.running_total
        else durTimestamp (c6S.running_total + (c6E.now - c6S.start))) :=
  c6_display_elapsed 16 0 c6H0 c6Envs c6S c6Out c6E rfl (by decide) rfl rfl
